import Mathlib

/-!
Verification development for the upspeak repository.

This file gives a shallow embedding of the `core` and `archive` packages:
the domain model (Node, Edge, Thread, the annotation aggregate), the typed
event envelope with its JSON payload decoding, the `LocalArchive` hybrid
storage engine (structured rows plus a blob file system), the
`Repository.HandleInputEvent` command dispatcher, and the cascade-delete
listener `ModuleArchive.handleRepositoryEvents`, together with theorems
settling the specification claims.

Modelling conventions:
- `xid.ID` values are represented by their 20-character base32hex string
  form (`ID.String()`), which is exactly how they are keyed in the
  database and on the file system.
- `time.Time` is represented by its wall-clock calendar components plus a
  fixed zone offset in minutes; monotonic-clock readings and named
  locations are outside the model.  `Format("2006-01-02T15:04:05Z07:00")`
  followed by `Parse` of that string keeps every component except the
  sub-second part, which the layout has no field for; the database round
  trip is therefore modelled as dropping `nsec`.
- `float64` is represented by `Rat`: the code only stores and compares
  edge weights, it never computes with them, and a float round trips
  exactly through an SQLite REAL column.
- `json.RawMessage` contents are represented by a parsed `Json` value; a
  nil raw message is `Option.none` (Go writes the blob only when
  `len(body) > 0`, and any present JSON value has non-empty bytes).
- Database statements are modelled as always succeeding on the logical
  row state (driver/connection failures are out of scope); file-system
  calls are modelled with their POSIX error behaviour, because the
  directory-versus-file distinction is load-bearing for thread storage.
-/

/-- JSON values, modelling the data carried by Go `encoding/json`
(`json.RawMessage` contents and event payloads). -/
inductive Json where
  | null : Json
  | bool : Bool → Json
  | num : Rat → Json
  | str : String → Json
  | arr : List Json → Json
  | obj : List (String × Json) → Json

/-- Field lookup in a JSON object.  Go struct decoding processes the
object's members in order, so for a duplicated key the last occurrence
wins. -/
def jsonField : List (String × Json) → String → Option Json
  | [], _ => none
  | (k, v) :: rest, key =>
    match jsonField rest key with
    | some w => some w
    | none => if k = key then some v else none

/-- Go `time.Time`, modelled by wall-clock calendar components and a fixed
zone offset in minutes east of UTC. -/
structure GoTime where
  year : Nat
  month : Nat
  day : Nat
  hour : Nat
  minute : Nat
  second : Nat
  nsec : Nat
  offsetMin : Int
deriving DecidableEq, Repr

/-- The zero `time.Time`: January 1, year 1, 00:00:00 UTC. -/
def zeroTime : GoTime := ⟨1, 1, 1, 0, 0, 0, 0, 0⟩

/-- The composition `Parse(layout, t.Format(layout))` for the layout
`2006-01-02T15:04:05Z07:00` used by the archive's database columns: every
component survives except the sub-second part. -/
def truncSec (t : GoTime) : GoTime := { t with nsec := 0 }

def digitVal (c : Char) : Nat := c.toNat - 48

def isDigit (c : Char) : Bool := 48 ≤ c.toNat && c.toNat ≤ 57

def natOfDigits (cs : List Char) : Nat := cs.foldl (fun a c => a * 10 + digitVal c) 0

def isLeapYear (y : Nat) : Bool := (y % 4 = 0 && y % 100 ≠ 0) || y % 400 = 0

def daysInMonth (y m : Nat) : Nat :=
  if m = 2 then (if isLeapYear y then 29 else 28)
  else if m = 4 ∨ m = 6 ∨ m = 9 ∨ m = 11 then 30
  else 31

/-- Parse the zone suffix of an RFC 3339 timestamp: `Z` or `±hh:mm`,
returning the offset in minutes. -/
def parseZone : List Char → Option Int
  | ['Z'] => some 0
  | [sgn, h1, h2, ':', m1, m2] =>
    if (sgn = '+' || sgn = '-') && [h1, h2, m1, m2].all isDigit then
      let h := natOfDigits [h1, h2]
      let m := natOfDigits [m1, m2]
      if h ≤ 23 && m ≤ 59 then
        some (if sgn = '+' then (h * 60 + m : Int) else -(h * 60 + m : Int))
      else none
    else none
  | _ => none

/-- Parse the optional fractional-second part and the zone: either the
zone directly, or `.digits` (one to nine digits, nanosecond precision)
followed by the zone. -/
def parseFracZone : List Char → Option (Nat × Int)
  | '.' :: more =>
    let ds := more.takeWhile isDigit
    let rest := more.drop ds.length
    if 1 ≤ ds.length && ds.length ≤ 9 then
      match parseZone rest with
      | some off => some (natOfDigits ds * 10 ^ (9 - ds.length), off)
      | none => none
    else none
  | rest =>
    match parseZone rest with
    | some off => some (0, off)
    | none => none

/-- Parse an RFC 3339 timestamp, as Go `time.Parse(time.RFC3339, s)` /
`time.Time.UnmarshalJSON` do. -/
def parseRFC3339 (s : String) : Option GoTime :=
  match s.toList with
  | y1 :: y2 :: y3 :: y4 :: '-' :: mo1 :: mo2 :: '-' :: d1 :: d2 :: 'T' ::
    h1 :: h2 :: ':' :: mi1 :: mi2 :: ':' :: s1 :: s2 :: rest =>
    if [y1, y2, y3, y4, mo1, mo2, d1, d2, h1, h2, mi1, mi2, s1, s2].all isDigit then
      let y := natOfDigits [y1, y2, y3, y4]
      let mo := natOfDigits [mo1, mo2]
      let d := natOfDigits [d1, d2]
      let h := natOfDigits [h1, h2]
      let mi := natOfDigits [mi1, mi2]
      let sec := natOfDigits [s1, s2]
      if 1 ≤ mo && mo ≤ 12 && 1 ≤ d && d ≤ daysInMonth y mo &&
          h ≤ 23 && mi ≤ 59 && sec ≤ 59 then
        match parseFracZone rest with
        | some (ns, off) => some ⟨y, mo, d, h, mi, sec, ns, off⟩
        | none => none
      else none
    else none
  | _ => none

/-- Left-pad a decimal rendering of `n` with zeros to width `w`. -/
def padNat (w n : Nat) : String :=
  let s := toString n
  String.mk (List.replicate (w - s.length) '0') ++ s

/-- Drop trailing zero digits of a fraction string. -/
def trimTrailingZeros (s : String) : String :=
  String.mk (s.toList.reverse.dropWhile (fun c => c = '0')).reverse

/-- The fractional-second part of an RFC 3339 Nano rendering. -/
def fracNano (nsec : Nat) : String :=
  if nsec = 0 then "" else "." ++ trimTrailingZeros (padNat 9 nsec)

/-- The zone suffix of an RFC 3339 rendering. -/
def zoneSuffix (off : Int) : String :=
  if off = 0 then "Z"
  else (if off < 0 then "-" else "+") ++
    padNat 2 (off.natAbs / 60) ++ ":" ++ padNat 2 (off.natAbs % 60)

/-- Go `time.Time.MarshalJSON` content: the RFC 3339 Nano rendering. -/
def formatRFC3339Nano (t : GoTime) : String :=
  padNat 4 t.year ++ "-" ++ padNat 2 t.month ++ "-" ++ padNat 2 t.day ++ "T" ++
    padNat 2 t.hour ++ ":" ++ padNat 2 t.minute ++ ":" ++ padNat 2 t.second ++
    fracNano t.nsec ++ zoneSuffix t.offsetMin

/-- `xid.ID` values, represented by their 20-character base32hex string
form, which is also the database key and blob file name
(`ID.String()`). -/
abbrev Xid := String

def xidAlphabet : List Char := "0123456789abcdefghijklmnopqrstuv".toList

/-- Validity of an xid string: 20 characters from the base32hex
alphabet (what `xid.FromString` accepts). -/
def xidValid (s : String) : Bool :=
  s.length = 20 && s.toList.all (fun c => xidAlphabet.contains c)

/-- `xid.FromString`. -/
def xidFromString (s : String) : Option Xid :=
  if xidValid s then some s else none

/-- The nil `xid.ID` (the Go zero value), whose string form is all
zeros. -/
def xidNil : Xid := "00000000000000000000"

/-- `core.Metadata`: a key and a raw JSON value (`json.RawMessage`;
`none` models a nil raw message). -/
structure Metadata where
  key : String
  value : Option Json

/-- `core.Node` (core/node fields used by the archive and repository):
id, type, subject, content type, raw body, metadata list, creator and
creation time.  A nil `Body`/empty byte slice is `none`; Go's nil and
empty metadata slices are identified with `[]`. -/
structure Node where
  id : Xid
  type : String
  subject : String
  contentType : String
  body : Option Json
  metadata : List Metadata
  createdBy : Xid
  createdAt : GoTime

/-- `core.Edge`: a directed, typed, weighted relation between two
nodes. -/
structure Edge where
  id : Xid
  type : String
  source : Xid
  target : Xid
  label : String
  weight : Rat
  createdAt : GoTime
deriving DecidableEq

/-- `core.Thread`: a root node, the edge list, and thread metadata. -/
structure Thread where
  node : Node
  edges : List Edge
  metadata : List Metadata

/-- `core.Annotation`: an annotation node, the edge linking it to its
target, and the motivation string. -/
structure Annotation where
  node : Node
  edge : Edge
  motivation : String

/-- The Go zero value of `core.Node`. -/
def zeroNode : Node := ⟨xidNil, "", "", "", none, [], xidNil, zeroTime⟩

/-- The Go zero value of `core.Edge`. -/
def zeroEdge : Edge := ⟨xidNil, "", xidNil, xidNil, "", 0, zeroTime⟩

/-- `core.Event`: the wire envelope with a unique id, a type tag, and a
raw JSON payload. -/
structure Event where
  id : Xid
  type : String
  payload : Json

/-- `core.NewEvent`: wrap an already-marshalled payload with a fresh
unique id and the type tag.  The fresh id drawn from `xid.New()` is
passed in explicitly; `json.Marshal` of the payload structs cannot fail
(modelled by the total `encode…` functions below). -/
def NewEvent (freshId : Xid) (eventType : String) (payload : Json) : Event :=
  ⟨freshId, eventType, payload⟩

/- Event type constants from core (the input command types and the
domain-event types). -/

def EventCreateNode : String := "CreateNode"
def EventUpdateNode : String := "UpdateNode"
def EventDeleteNode : String := "DeleteNode"
def EventCreateEdge : String := "CreateEdge"
def EventUpdateEdge : String := "UpdateEdge"
def EventDeleteEdge : String := "DeleteEdge"

/-- Modelled from the spec: the thread command type constants
`EventCreateThread`, `EventUpdateThread`, `EventDeleteThread` are
referenced by `core/repo.go` and `repo/handlers_thread.go` but their
declarations are not under src; spec section 6 fixes the command type
strings as `CreateThread`, `UpdateThread`, `DeleteThread`. -/
def EventCreateThread : String := "CreateThread"

/-- Modelled from the spec: see `EventCreateThread`. -/
def EventUpdateThread : String := "UpdateThread"

/-- Modelled from the spec: see `EventCreateThread`. -/
def EventDeleteThread : String := "DeleteThread"

def EventNodeCreated : String := "NodeCreated"
def EventNodeUpdated : String := "NodeUpdated"
def EventNodeDeleted : String := "NodeDeleted"
def EventEdgeCreated : String := "EdgeCreated"
def EventEdgeUpdated : String := "EdgeUpdated"
def EventEdgeDeleted : String := "EdgeDeleted"

/-- Modelled from the spec: the thread domain-event type constants are
not declared under src; spec section 6 fixes the strings. -/
def EventThreadCreated : String := "ThreadCreated"

/-- Modelled from the spec: see `EventThreadCreated`. -/
def EventThreadUpdated : String := "ThreadUpdated"

/-- Modelled from the spec: see `EventThreadCreated`. -/
def EventThreadDeleted : String := "ThreadDeleted"

/-- The typed errors returned by `Repository.HandleInputEvent`
(core/errors.go). -/
inductive RepoError where
  | unmarshal : String → RepoError
  | save : String → RepoError
  | delete : String → RepoError
  | eventCreation : String → RepoError
  | unknownEventType : String → RepoError
deriving DecidableEq, Repr

/-- Errors returned by `LocalArchive` operations: the typed
`core.ErrorNotFound` carrying the resource kind and identifier, or a
`fmt.Errorf`-wrapped operation error identified by its context
message. -/
inductive ArchiveError where
  | notFound : String → String → ArchiveError
  | wrapped : String → ArchiveError
deriving DecidableEq, Repr

/- JSON field decoding, following Go `encoding/json` semantics: an
absent member leaves the target's zero value; a JSON null leaves plain
fields untouched (and is handed to custom unmarshallers, which for
`xid.ID` and `time.Time` treat it as a no-op); a wrong-typed member is
an error (`none`). -/

def decodeStringField : Option Json → Option String
  | none => some ""
  | some Json.null => some ""
  | some (Json.str s) => some s
  | some _ => none

def decodeXidField : Option Json → Option Xid
  | none => some xidNil
  | some Json.null => some xidNil
  | some (Json.str s) => xidFromString s
  | some _ => none

def decodeNumField : Option Json → Option Rat
  | none => some 0
  | some Json.null => some 0
  | some (Json.num q) => some q
  | some _ => none

def decodeTimeField : Option Json → Option GoTime
  | none => some zeroTime
  | some Json.null => some zeroTime
  | some (Json.str s) => parseRFC3339 s
  | some _ => none

/-- A `json.RawMessage` field: absent leaves the nil raw message, any
present value (including null) is captured verbatim. -/
def decodeRawField : Option Json → Option (Option Json)
  | none => some none
  | some j => some (some j)

def decodeMetadataElem : Json → Option Metadata
  | Json.null => some ⟨"", none⟩
  | Json.obj fs => do
    let key ← decodeStringField (jsonField fs "key")
    let value ← decodeRawField (jsonField fs "value")
    pure ⟨key, value⟩
  | _ => none

def decodeMetadataListField : Option Json → Option (List Metadata)
  | none => some []
  | some Json.null => some []
  | some (Json.arr xs) => xs.mapM decodeMetadataElem
  | some _ => none

/-- Decode a `core.Node` value from a JSON object (field tags from
core/node). -/
def decodeNode : Json → Option Node
  | Json.obj fs => do
    let id ← decodeXidField (jsonField fs "id")
    let ty ← decodeStringField (jsonField fs "type")
    let subject ← decodeStringField (jsonField fs "subject")
    let contentType ← decodeStringField (jsonField fs "content_type")
    let body ← decodeRawField (jsonField fs "body")
    let metadata ← decodeMetadataListField (jsonField fs "metadata")
    let createdBy ← decodeXidField (jsonField fs "created_by")
    let createdAt ← decodeTimeField (jsonField fs "created_at")
    pure ⟨id, ty, subject, contentType, body, metadata, createdBy, createdAt⟩
  | _ => none

/-- Decode a `*core.Node` field: absent or null is a nil pointer. -/
def decodePtrNodeField : Option Json → Option (Option Node)
  | none => some none
  | some Json.null => some none
  | some j => (decodeNode j).map some

/-- Decode a `core.Edge` value from a JSON object. -/
def decodeEdge : Json → Option Edge
  | Json.obj fs => do
    let id ← decodeXidField (jsonField fs "id")
    let ty ← decodeStringField (jsonField fs "type")
    let source ← decodeXidField (jsonField fs "source")
    let target ← decodeXidField (jsonField fs "target")
    let label ← decodeStringField (jsonField fs "label")
    let weight ← decodeNumField (jsonField fs "weight")
    let createdAt ← decodeTimeField (jsonField fs "created_at")
    pure ⟨id, ty, source, target, label, weight, createdAt⟩
  | _ => none

/-- Decode a `*core.Edge` field: absent or null is a nil pointer. -/
def decodePtrEdgeField : Option Json → Option (Option Edge)
  | none => some none
  | some Json.null => some none
  | some j => (decodeEdge j).map some

def decodeEdgeElem : Json → Option Edge
  | Json.null => some zeroEdge
  | j => decodeEdge j

def decodeEdgeListField : Option Json → Option (List Edge)
  | none => some []
  | some Json.null => some []
  | some (Json.arr xs) => xs.mapM decodeEdgeElem
  | some _ => none

def decodeNodeValueField : Option Json → Option Node
  | none => some zeroNode
  | some Json.null => some zeroNode
  | some j => decodeNode j

/-- Decode a `core.Thread` value from a JSON object (field tags from
core/thread). -/
def decodeThread : Json → Option Thread
  | Json.obj fs => do
    let node ← decodeNodeValueField (jsonField fs "node")
    let edges ← decodeEdgeListField (jsonField fs "edges")
    let metadata ← decodeMetadataListField (jsonField fs "metadata")
    pure ⟨node, edges, metadata⟩
  | _ => none

/-- Decode a `*core.Thread` field: absent or null is a nil pointer. -/
def decodePtrThreadField : Option Json → Option (Option Thread)
  | none => some none
  | some Json.null => some none
  | some j => (decodeThread j).map some

/- Event payload decoding: `json.Unmarshal(event.Payload, &payload)`
into the payload structs of core (field tags from core events; the
thread payload tags follow the node/edge naming, see the spec-modelled
notes).  A top-level JSON null leaves the zero-valued struct; anything
other than an object or null is an error. -/

/-- `core.EventNodeCreatePayload`: a `node` member holding a `*Node`. -/
def decodeEventNodeCreatePayload : Json → Option (Option Node)
  | Json.null => some none
  | Json.obj fs => decodePtrNodeField (jsonField fs "node")
  | _ => none

/-- `core.EventNodeUpdatePayload`: `node_id` and `updated_node`. -/
def decodeEventNodeUpdatePayload : Json → Option (Xid × Option Node)
  | Json.null => some (xidNil, none)
  | Json.obj fs => do
    let nid ← decodeXidField (jsonField fs "node_id")
    let n ← decodePtrNodeField (jsonField fs "updated_node")
    pure (nid, n)
  | _ => none

/-- `core.EventNodeDeletePayload`: a `node_id` member. -/
def decodeEventNodeDeletePayload : Json → Option Xid
  | Json.null => some xidNil
  | Json.obj fs => decodeXidField (jsonField fs "node_id")
  | _ => none

/-- `core.EventEdgeCreatePayload`: an `edge` member holding a `*Edge`. -/
def decodeEventEdgeCreatePayload : Json → Option (Option Edge)
  | Json.null => some none
  | Json.obj fs => decodePtrEdgeField (jsonField fs "edge")
  | _ => none

/-- `core.EventEdgeDeletePayload`: an `edge_id` member. -/
def decodeEventEdgeDeletePayload : Json → Option Xid
  | Json.null => some xidNil
  | Json.obj fs => decodeXidField (jsonField fs "edge_id")
  | _ => none

/-- Modelled from the spec: `core.EventThreadCreatePayload` is referenced
by core/repo.go and repo/handlers_thread.go but not declared under src.
Following the create-payload convention (full entity under the entity's
name), it carries a `thread` member holding a `*Thread`. -/
def decodeEventThreadCreatePayload : Json → Option (Option Thread)
  | Json.null => some none
  | Json.obj fs => decodePtrThreadField (jsonField fs "thread")
  | _ => none

/-- Modelled from the spec: `core.EventThreadUpdatePayload` (fields
`ThreadId`, `UpdatedThread` per its callers) with tags `thread_id` and
`updated_thread` following the node/edge naming. -/
def decodeEventThreadUpdatePayload : Json → Option (Xid × Option Thread)
  | Json.null => some (xidNil, none)
  | Json.obj fs => do
    let tid ← decodeXidField (jsonField fs "thread_id")
    let t ← decodePtrThreadField (jsonField fs "updated_thread")
    pure (tid, t)
  | _ => none

/-- Modelled from the spec: `core.EventThreadDeletePayload` (field
`ThreadId` per its callers) with tag `thread_id`. -/
def decodeEventThreadDeletePayload : Json → Option Xid
  | Json.null => some xidNil
  | Json.obj fs => decodeXidField (jsonField fs "thread_id")
  | _ => none

/- Marshalling of the outgoing payload structs (`json.Marshal` inside
`core.NewEvent`). -/

def encodeMetadataElem (m : Metadata) : Json :=
  Json.obj [("key", Json.str m.key), ("value", m.value.getD Json.null)]

def encodeMetadataList (ms : List Metadata) : Json :=
  Json.arr (ms.map encodeMetadataElem)

def encodeNode (n : Node) : Json :=
  Json.obj [("id", Json.str n.id), ("type", Json.str n.type),
    ("subject", Json.str n.subject), ("content_type", Json.str n.contentType),
    ("body", n.body.getD Json.null), ("metadata", encodeMetadataList n.metadata),
    ("created_by", Json.str n.createdBy),
    ("created_at", Json.str (formatRFC3339Nano n.createdAt))]

def encodePtrNode : Option Node → Json
  | none => Json.null
  | some n => encodeNode n

def encodeEdge (e : Edge) : Json :=
  Json.obj [("id", Json.str e.id), ("type", Json.str e.type),
    ("source", Json.str e.source), ("target", Json.str e.target),
    ("label", Json.str e.label), ("weight", Json.num e.weight),
    ("created_at", Json.str (formatRFC3339Nano e.createdAt))]

def encodePtrEdge : Option Edge → Json
  | none => Json.null
  | some e => encodeEdge e

def encodeThread (t : Thread) : Json :=
  Json.obj [("node", encodeNode t.node), ("edges", Json.arr (t.edges.map encodeEdge)),
    ("metadata", encodeMetadataList t.metadata)]

def encodePtrThread : Option Thread → Json
  | none => Json.null
  | some t => encodeThread t

def encodeEventNodeCreatePayload (n : Option Node) : Json :=
  Json.obj [("node", encodePtrNode n)]

def encodeEventNodeUpdatePayload (nid : Xid) (n : Option Node) : Json :=
  Json.obj [("node_id", Json.str nid), ("updated_node", encodePtrNode n)]

def encodeEventNodeDeletePayload (nid : Xid) : Json :=
  Json.obj [("node_id", Json.str nid)]

def encodeEventEdgeCreatePayload (e : Option Edge) : Json :=
  Json.obj [("edge", encodePtrEdge e)]

/-- `core.EventEdgeUpdatePayload` marshalled: `edge_id` and
`updated_edge`. -/
def encodeEventEdgeUpdatePayload (eid : Xid) (e : Option Edge) : Json :=
  Json.obj [("edge_id", Json.str eid), ("updated_edge", encodePtrEdge e)]

def encodeEventEdgeDeletePayload (eid : Xid) : Json :=
  Json.obj [("edge_id", Json.str eid)]

/-- Modelled from the spec: see `decodeEventThreadCreatePayload`. -/
def encodeEventThreadCreatePayload (t : Option Thread) : Json :=
  Json.obj [("thread", encodePtrThread t)]

/-- Modelled from the spec: see `decodeEventThreadUpdatePayload`. -/
def encodeEventThreadUpdatePayload (tid : Xid) (t : Option Thread) : Json :=
  Json.obj [("thread_id", Json.str tid), ("updated_thread", encodePtrThread t)]

/-- Modelled from the spec: see `decodeEventThreadDeletePayload`. -/
def encodeEventThreadDeletePayload (tid : Xid) : Json :=
  Json.obj [("thread_id", Json.str tid)]

/- The blob file system under the archive root.  Paths are lists of
segments relative to the root: `[nodeId]` for a top-level blob,
`[threadRootId, nodeId]` for a blob inside a thread directory. -/

/-- Path `p` equals `q` or lies above it (segment-wise prefix order). -/
def pathLe : List String → List String → Bool
  | [], _ => true
  | _ :: _, [] => false
  | a :: as, b :: bs => if a = b then pathLe as bs else false

/-- File store lookup. -/
def fsGet : List (List String × Json) → List String → Option Json
  | [], _ => none
  | (q, c) :: rest, p => if q = p then some c else fsGet rest p

/-- Remove a file entry. -/
def fsDel : List (List String × Json) → List String → List (List String × Json)
  | [], _ => []
  | (q, c) :: rest, p => if q = p then fsDel rest p else (q, c) :: fsDel rest p

/-- The file system: regular files with contents, and directories. -/
structure Fs where
  files : List (List String × Json)
  dirs : List (List String)

/-- `os.Stat(path)` succeeds: a file or a directory exists there. -/
def fsStatExists (fs : Fs) (p : List String) : Bool :=
  (fsGet fs.files p).isSome || decide (p ∈ fs.dirs)

/-- `os.ReadFile`: fails (`none`) on a directory (EISDIR) or a missing
file (ENOENT). -/
def fsReadFile (fs : Fs) (p : List String) : Option Json :=
  if p ∈ fs.dirs then none else fsGet fs.files p

/-- `os.WriteFile`: fails on a directory (EISDIR) or when the parent
directory does not exist (ENOENT); otherwise creates or truncates the
file.  Only the single-level paths used by the archive need parents. -/
def fsWriteFile (fs : Fs) (p : List String) (content : Json) : Option Fs :=
  if p ∈ fs.dirs then none
  else if 2 ≤ p.length ∧ p.dropLast ∉ fs.dirs then none
  else some { fs with files := (p, content) :: fsDel fs.files p }

/-- `os.MkdirAll`: succeeds if the directory already exists, fails if a
regular file occupies the path, creates it otherwise. -/
def fsMkdirAll (fs : Fs) (p : List String) : Option Fs :=
  if (fsGet fs.files p).isSome then none
  else if p ∈ fs.dirs then some fs
  else some { fs with dirs := p :: fs.dirs }

/-- Outcomes of `os.Remove`, distinguishing the not-exist error that
callers tolerate via `os.IsNotExist`. -/
inductive RmResult where
  | ok : Fs → RmResult
  | notExist : RmResult
  | failed : RmResult

/-- Is anything stored strictly below path `p`? -/
def fsHasUnder (fs : Fs) (p : List String) : Bool :=
  fs.files.any (fun e => pathLe p e.1 && e.1 ≠ p) ||
    fs.dirs.any (fun q => pathLe p q && q ≠ p)

/-- `os.Remove`: removes a file or an empty directory; ENOENT when
nothing is there; fails on a non-empty directory. -/
def fsRemove (fs : Fs) (p : List String) : RmResult :=
  if p ∈ fs.dirs then
    (if fsHasUnder fs p then RmResult.failed
     else RmResult.ok { fs with dirs := fs.dirs.filter (fun q => q ≠ p) })
  else
    match fsGet fs.files p with
    | some _ => RmResult.ok { fs with files := fsDel fs.files p }
    | none => RmResult.notExist

/-- `os.RemoveAll`: removes the path and everything below it; succeeds
even when nothing is there. -/
def fsRemoveAll (fs : Fs) (p : List String) : Fs :=
  { files := fs.files.filter (fun e => !pathLe p e.1),
    dirs := fs.dirs.filter (fun q => !pathLe p q) }

/- The structured store (SQLite tables of `LocalArchive.initSchema`),
modelled as logical row maps keyed by the id strings. -/

/-- A row of the `nodes` table.  `created_at` is stored as the
`2006-01-02T15:04:05Z07:00` rendering; the value kept here is what
parsing that string back yields (sub-second part dropped). -/
structure NodeRow where
  type : String
  subject : String
  contentType : String
  metadata : List Metadata
  createdBy : Xid
  createdAt : GoTime

/-- A row of the `edges` table. -/
structure EdgeRow where
  type : String
  source : Xid
  target : Xid
  label : String
  weight : Rat
  createdAt : GoTime
deriving DecidableEq

/-- A row of the `annotations` table: the edge id and the motivation,
keyed by the annotation node's id. -/
structure AnnRow where
  edgeId : Xid
  motivation : String
deriving DecidableEq

def tblSet {α : Type} (f : Xid → Option α) (i : Xid) (v : α) : Xid → Option α :=
  fun j => if j = i then some v else f j

def tblDel {α : Type} (f : Xid → Option α) (i : Xid) : Xid → Option α :=
  fun j => if j = i then none else f j

/-- The full state of a `LocalArchive`: the five tables (the
`thread_edges` join table as a row list in insertion order) and the blob
file system under the archive root. -/
structure ArchiveState where
  nodes : Xid → Option NodeRow
  edges : Xid → Option EdgeRow
  threads : Xid → Option (List Metadata)
  threadEdges : List (Xid × Xid)
  annotations : Xid → Option AnnRow
  fs : Fs

/-- A freshly created archive: empty tables, no blobs. -/
def emptyState : ArchiveState :=
  ⟨fun _ => none, fun _ => none, fun _ => none, [], fun _ => none, ⟨[], []⟩⟩

/-- The `nodes` row written for a node (`INSERT OR REPLACE` of
`SaveNode`). -/
def nodeRowOf (n : Node) : NodeRow :=
  ⟨n.type, n.subject, n.contentType, n.metadata, n.createdBy, truncSec n.createdAt⟩

/-- The `edges` row written for an edge (`INSERT OR REPLACE` of
`SaveEdge`). -/
def edgeRowOf (e : Edge) : EdgeRow :=
  ⟨e.type, e.source, e.target, e.label, e.weight, truncSec e.createdAt⟩

/-- `LocalArchive.SaveNode` (archive/local.go): reject a nil node,
upsert the structured row, then write the blob file only when the body
is non-empty. -/
def SaveNode (s : ArchiveState) (n : Option Node) :
    ArchiveState × Except ArchiveError Unit :=
  match n with
  | none => (s, Except.error (ArchiveError.wrapped "node is nil"))
  | some n =>
    let s1 := { s with nodes := tblSet s.nodes n.id (nodeRowOf n) }
    match n.body with
    | none => (s1, Except.ok ())
    | some b =>
      match fsWriteFile s1.fs [n.id] b with
      | none => (s1, Except.error (ArchiveError.wrapped "failed to save node content"))
      | some fs1 => ({ s1 with fs := fs1 }, Except.ok ())

/-- `LocalArchive.GetNode`: read the row (typed not-found error when
absent), then load the blob from the top-level path when `os.Stat`
succeeds there. -/
def GetNode (s : ArchiveState) (nodeID : Xid) : Except ArchiveError Node :=
  match s.nodes nodeID with
  | none => Except.error (ArchiveError.notFound "node" nodeID)
  | some row =>
    let base : Node :=
      ⟨nodeID, row.type, row.subject, row.contentType, none, row.metadata,
        row.createdBy, row.createdAt⟩
    if fsStatExists s.fs [nodeID] then
      match fsReadFile s.fs [nodeID] with
      | none => Except.error (ArchiveError.wrapped "failed to read node content")
      | some b => Except.ok { base with body := some b }
    else Except.ok base

/-- `LocalArchive.DeleteNode`: delete the row, then remove the blob
file, tolerating only the not-exist error. -/
def DeleteNode (s : ArchiveState) (nodeID : Xid) :
    ArchiveState × Except ArchiveError Unit :=
  let s1 := { s with nodes := tblDel s.nodes nodeID }
  match fsRemove s1.fs [nodeID] with
  | RmResult.ok fs1 => ({ s1 with fs := fs1 }, Except.ok ())
  | RmResult.notExist => (s1, Except.ok ())
  | RmResult.failed =>
    (s1, Except.error (ArchiveError.wrapped "failed to delete node content"))

/-- `LocalArchive.SaveEdge`: reject a nil edge, upsert the structured
row (no blob component). -/
def SaveEdge (s : ArchiveState) (e : Option Edge) :
    ArchiveState × Except ArchiveError Unit :=
  match e with
  | none => (s, Except.error (ArchiveError.wrapped "edge is nil"))
  | some e => ({ s with edges := tblSet s.edges e.id (edgeRowOf e) }, Except.ok ())

/-- `LocalArchive.GetEdge`: read the row (typed not-found error when
absent).  The row's `created_at` column is scanned into a local string
that is never assigned to the result (archive/local.go, the
`GetEdge` scan), so the returned edge keeps the zero `CreatedAt`. -/
def GetEdge (s : ArchiveState) (edgeID : Xid) : Except ArchiveError Edge :=
  match s.edges edgeID with
  | none => Except.error (ArchiveError.notFound "edge" edgeID)
  | some row =>
    Except.ok ⟨edgeID, row.type, row.source, row.target, row.label, row.weight, zeroTime⟩

/-- `LocalArchive.DeleteEdge`: delete the row; no error when absent. -/
def DeleteEdge (s : ArchiveState) (edgeID : Xid) :
    ArchiveState × Except ArchiveError Unit :=
  ({ s with edges := tblDel s.edges edgeID }, Except.ok ())

/-- `LocalArchive.DeleteEdgesByNode`: delete every edge whose source or
target equals the given node id. -/
def DeleteEdgesByNode (s : ArchiveState) (nodeID : Xid) :
    ArchiveState × Except ArchiveError Unit :=
  ({ s with edges := fun i =>
      match s.edges i with
      | some r => if r.source = nodeID ∨ r.target = nodeID then none else some r
      | none => none },
    Except.ok ())

/-- The edge-saving loop of `SaveThread`: `a.SaveEdge` goes through the
db handle and takes effect immediately, the `thread_edges` insert goes
through the open transaction and is collected as a pending join row
(first argument accumulates in reverse).  A duplicate edge id violates
the join table's primary key (plain `INSERT`). -/
def saveThreadEdges (s : ArchiveState) (tid : Xid) :
    List Edge → List (Xid × Xid) → ArchiveState × Except ArchiveError (List (Xid × Xid))
  | [], acc => (s, Except.ok acc.reverse)
  | e :: rest, acc =>
    match SaveEdge s (some e) with
    | (s1, Except.error _) =>
      (s1, Except.error (ArchiveError.wrapped "failed to save thread edge"))
    | (s1, Except.ok _) =>
      if (tid, e.id) ∈ acc then
        (s1, Except.error (ArchiveError.wrapped "failed to link edge to thread"))
      else saveThreadEdges s1 tid rest ((tid, e.id) :: acc)

/-- Delete the join rows of one thread (the transactional
`DELETE FROM thread_edges WHERE thread_node_id = ?`). -/
def threadEdgesDel : List (Xid × Xid) → Xid → List (Xid × Xid)
  | [], _ => []
  | (t, e) :: rest, tid =>
    if t = tid then threadEdgesDel rest tid else (t, e) :: threadEdgesDel rest tid

/-- First-occurrence deduplication helper for the node-id set collected
by `SaveThread`. -/
def dedupAux : List Xid → List Xid → List Xid
  | [], _ => []
  | x :: xs, seen =>
    if x ∈ seen then dedupAux xs seen else x :: dedupAux xs (x :: seen)

/-- The node ids whose blobs `SaveThread` moves: the root id plus the
source and target of every edge.  Go collects them in a map and iterates
in unspecified order; the model fixes root-first insertion order.  Every
iteration order reaches the root id, whose path is the thread directory
itself, so the loop's error result does not depend on the order. -/
def threadNodeIds (tid : Xid) (edges : List Edge) : List Xid :=
  dedupAux (tid :: edges.flatMap (fun e => [e.source, e.target])) []

/-- The post-commit blob relocation loop of `SaveThread`: for each
collected node id whose path exists, read it, write it into the thread
directory, and remove the original unless it is the root (the root's
copy stays at the top level; `os.Remove` errors are ignored there). -/
def moveThreadBlobs (s : ArchiveState) (tid : Xid) :
    List Xid → ArchiveState × Except ArchiveError Unit
  | [] => (s, Except.ok ())
  | nid :: rest =>
    if fsStatExists s.fs [nid] then
      match fsReadFile s.fs [nid] with
      | none => (s, Except.error (ArchiveError.wrapped "failed to read node content"))
      | some content =>
        match fsWriteFile s.fs [tid, nid] content with
        | none =>
          (s, Except.error (ArchiveError.wrapped "failed to write node to thread directory"))
        | some fs1 =>
          let fs2 :=
            if nid = tid then fs1
            else
              match fsRemove fs1 [nid] with
              | RmResult.ok f => f
              | _ => fs1
          moveThreadBlobs { s with fs := fs2 } tid rest
    else moveThreadBlobs s tid rest

/-- `LocalArchive.SaveThread` (archive/local.go): create the thread
directory named after the root id; inside an open transaction upsert the
thread row and rewrite the join rows (buffered until the commit) while
`SaveNode`/`SaveEdge` write through the db handle immediately; commit;
then relocate the blobs.  An early error rolls the buffered transaction
writes back but keeps the direct writes. -/
def SaveThread (s : ArchiveState) (t : Option Thread) :
    ArchiveState × Except ArchiveError Unit :=
  match t with
  | none => (s, Except.error (ArchiveError.wrapped "thread is nil"))
  | some t =>
    let tid := t.node.id
    match fsMkdirAll s.fs [tid] with
    | none => (s, Except.error (ArchiveError.wrapped "failed to create thread directory"))
    | some fs0 =>
      let s0 := { s with fs := fs0 }
      match SaveNode s0 (some t.node) with
      | (s1, Except.error _) =>
        (s1, Except.error (ArchiveError.wrapped "failed to save thread node"))
      | (s1, Except.ok _) =>
        match saveThreadEdges s1 tid t.edges [] with
        | (s2, Except.error err) => (s2, Except.error err)
        | (s2, Except.ok joins) =>
          let s3 := { s2 with
            threads := tblSet s2.threads tid t.metadata,
            threadEdges := threadEdgesDel s2.threadEdges tid ++ joins }
          moveThreadBlobs s3 tid (threadNodeIds tid t.edges)

/-- The join rows of one thread, in table order (`SELECT edge_id FROM
thread_edges WHERE thread_node_id = ?`). -/
def joinEdgeIds : List (Xid × Xid) → Xid → List Xid
  | [], _ => []
  | (t, e) :: rest, tid =>
    if t = tid then e :: joinEdgeIds rest tid else joinEdgeIds rest tid

/-- Resolve each joined edge id through `GetEdge` (`GetThread`'s edge
loop; a failed lookup is wrapped). -/
def getThreadEdges (s : ArchiveState) : List Xid → Except ArchiveError (List Edge)
  | [] => Except.ok []
  | eid :: rest =>
    match GetEdge s eid with
    | Except.error _ => Except.error (ArchiveError.wrapped "failed to get edge")
    | Except.ok e =>
      match getThreadEdges s rest with
      | Except.error err => Except.error err
      | Except.ok es => Except.ok (e :: es)

/-- `LocalArchive.GetThread`: read the thread row (typed not-found when
absent), load the root node, overlay the root body from the thread
directory when present (silent fallback), then resolve the joined
edges. -/
def GetThread (s : ArchiveState) (nodeID : Xid) : Except ArchiveError Thread :=
  match s.threads nodeID with
  | none => Except.error (ArchiveError.notFound "thread" nodeID)
  | some meta =>
    match GetNode s nodeID with
    | Except.error _ => Except.error (ArchiveError.wrapped "failed to get thread node")
    | Except.ok node =>
      let node1 :=
        if fsStatExists s.fs [nodeID, nodeID] then
          match fsReadFile s.fs [nodeID, nodeID] with
          | some b => { node with body := some b }
          | none => node
        else node
      match getThreadEdges s (joinEdgeIds s.threadEdges nodeID) with
      | Except.error err => Except.error err
      | Except.ok es => Except.ok ⟨node1, es, meta⟩

/-- `LocalArchive.DeleteThread`: transactionally remove the join rows
and the thread row, remove the thread directory recursively, then
delete the root node through the ordinary node-delete path. -/
def DeleteThread (s : ArchiveState) (nodeID : Xid) :
    ArchiveState × Except ArchiveError Unit :=
  let s1 := { s with
    threadEdges := threadEdgesDel s.threadEdges nodeID,
    threads := tblDel s.threads nodeID }
  let s2 := { s1 with fs := fsRemoveAll s1.fs [nodeID] }
  DeleteNode s2 nodeID

/-- `LocalArchive.SaveAnnotation`: reject nil, save the annotation node
and the edge, then upsert the annotations row. -/
def SaveAnnotation (s : ArchiveState) (a : Option Annotation) :
    ArchiveState × Except ArchiveError Unit :=
  match a with
  | none => (s, Except.error (ArchiveError.wrapped "annotation is nil"))
  | some a =>
    match SaveNode s (some a.node) with
    | (s1, Except.error _) =>
      (s1, Except.error (ArchiveError.wrapped "failed to save annotation node"))
    | (s1, Except.ok _) =>
      match SaveEdge s1 (some a.edge) with
      | (s2, Except.error _) =>
        (s2, Except.error (ArchiveError.wrapped "failed to save annotation edge"))
      | (s2, Except.ok _) =>
        ({ s2 with annotations := tblSet s2.annotations a.node.id ⟨a.edge.id, a.motivation⟩ },
          Except.ok ())

/-- `LocalArchive.GetAnnotation`: read the annotations row (typed
not-found when absent), then load the node and the edge (failures
wrapped). -/
def GetAnnotation (s : ArchiveState) (nodeID : Xid) : Except ArchiveError Annotation :=
  match s.annotations nodeID with
  | none => Except.error (ArchiveError.notFound "annotation" nodeID)
  | some row =>
    match GetNode s nodeID with
    | Except.error _ => Except.error (ArchiveError.wrapped "failed to get annotation node")
    | Except.ok node =>
      match GetEdge s row.edgeId with
      | Except.error _ => Except.error (ArchiveError.wrapped "failed to get annotation edge")
      | Except.ok edge => Except.ok ⟨node, edge, row.motivation⟩

/-- `LocalArchive.DeleteAnnotation`: look the annotation up first (its
error — the typed not-found on an absent id — is returned as is), then
delete the row, the edge, and the node. -/
def DeleteAnnotation (s : ArchiveState) (nodeID : Xid) :
    ArchiveState × Except ArchiveError Unit :=
  match GetAnnotation s nodeID with
  | Except.error err => (s, Except.error err)
  | Except.ok ann =>
    let s1 := { s with annotations := tblDel s.annotations nodeID }
    match DeleteEdge s1 ann.edge.id with
    | (s2, Except.error _) =>
      (s2, Except.error (ArchiveError.wrapped "failed to delete annotation edge"))
    | (s2, Except.ok _) => DeleteNode s2 nodeID

/-- `Repository.HandleInputEvent` (core/repo.go): dispatch on the event
type; decode the registered payload shape (decode failure is an
unmarshal error), perform the single archive call (failure is a
save/delete error), and wrap the outgoing typed payload in a fresh
event.  The fresh id drawn inside `core.NewEvent` is the `freshId`
argument.  Note the `UpdateEdge` branch: the code decodes
`EventEdgeCreatePayload` (the create shape, member `edge`) and emits an
`EventEdgeUpdatePayload` built from the decoded edge's own id. -/
def HandleInputEvent (s : ArchiveState) (freshId : Xid) (inputEvent : Event) :
    ArchiveState × Except RepoError Event :=
  if inputEvent.type = EventCreateNode then
    match decodeEventNodeCreatePayload inputEvent.payload with
    | none => (s, Except.error (RepoError.unmarshal "EventNodeCreatePayload"))
    | some n =>
      match SaveNode s n with
      | (s1, Except.error _) => (s1, Except.error (RepoError.save "node"))
      | (s1, Except.ok _) =>
        (s1, Except.ok (NewEvent freshId EventNodeCreated (encodeEventNodeCreatePayload n)))
  else if inputEvent.type = EventUpdateNode then
    match decodeEventNodeUpdatePayload inputEvent.payload with
    | none => (s, Except.error (RepoError.unmarshal "EventNodeUpdatePayload"))
    | some (nid, n) =>
      match SaveNode s n with
      | (s1, Except.error _) => (s1, Except.error (RepoError.save "updated node"))
      | (s1, Except.ok _) =>
        (s1, Except.ok (NewEvent freshId EventNodeUpdated (encodeEventNodeUpdatePayload nid n)))
  else if inputEvent.type = EventDeleteNode then
    match decodeEventNodeDeletePayload inputEvent.payload with
    | none => (s, Except.error (RepoError.unmarshal "EventNodeDeletePayload"))
    | some nid =>
      match DeleteNode s nid with
      | (s1, Except.error _) => (s1, Except.error (RepoError.delete "node"))
      | (s1, Except.ok _) =>
        (s1, Except.ok (NewEvent freshId EventNodeDeleted (encodeEventNodeDeletePayload nid)))
  else if inputEvent.type = EventCreateEdge then
    match decodeEventEdgeCreatePayload inputEvent.payload with
    | none => (s, Except.error (RepoError.unmarshal "EventEdgeCreatePayload"))
    | some e =>
      match SaveEdge s e with
      | (s1, Except.error _) => (s1, Except.error (RepoError.save "edge"))
      | (s1, Except.ok _) =>
        (s1, Except.ok (NewEvent freshId EventEdgeCreated (encodeEventEdgeCreatePayload e)))
  else if inputEvent.type = EventUpdateEdge then
    match decodeEventEdgeCreatePayload inputEvent.payload with
    | none => (s, Except.error (RepoError.unmarshal "EventEdgeCreatePayload"))
    | some e =>
      match SaveEdge s e with
      | (s1, Except.error _) => (s1, Except.error (RepoError.save "edge"))
      | (s1, Except.ok _) =>
        match e with
        | some e =>
          (s1, Except.ok (NewEvent freshId EventEdgeUpdated
            (encodeEventEdgeUpdatePayload e.id (some e))))
        | none =>
          -- unreachable: SaveEdge rejects a nil edge, so the ok branch
          -- implies the pointer is non-nil (Go dereferences it here)
          (s1, Except.error (RepoError.save "edge"))
  else if inputEvent.type = EventDeleteEdge then
    match decodeEventEdgeDeletePayload inputEvent.payload with
    | none => (s, Except.error (RepoError.unmarshal "EventEdgeDeletePayload"))
    | some eid =>
      match DeleteEdge s eid with
      | (s1, Except.error _) => (s1, Except.error (RepoError.delete "edge"))
      | (s1, Except.ok _) =>
        (s1, Except.ok (NewEvent freshId EventEdgeDeleted (encodeEventEdgeDeletePayload eid)))
  else if inputEvent.type = EventCreateThread then
    match decodeEventThreadCreatePayload inputEvent.payload with
    | none => (s, Except.error (RepoError.unmarshal "EventThreadCreatePayload"))
    | some t =>
      match SaveThread s t with
      | (s1, Except.error _) => (s1, Except.error (RepoError.save "thread"))
      | (s1, Except.ok _) =>
        (s1, Except.ok (NewEvent freshId EventThreadCreated (encodeEventThreadCreatePayload t)))
  else if inputEvent.type = EventUpdateThread then
    match decodeEventThreadUpdatePayload inputEvent.payload with
    | none => (s, Except.error (RepoError.unmarshal "EventThreadUpdatePayload"))
    | some (tid, t) =>
      match SaveThread s t with
      | (s1, Except.error _) => (s1, Except.error (RepoError.save "updated thread"))
      | (s1, Except.ok _) =>
        (s1, Except.ok (NewEvent freshId EventThreadUpdated
          (encodeEventThreadUpdatePayload tid t)))
  else if inputEvent.type = EventDeleteThread then
    match decodeEventThreadDeletePayload inputEvent.payload with
    | none => (s, Except.error (RepoError.unmarshal "EventThreadDeletePayload"))
    | some tid =>
      match DeleteThread s tid with
      | (s1, Except.error _) => (s1, Except.error (RepoError.delete "thread"))
      | (s1, Except.ok _) =>
        (s1, Except.ok (NewEvent freshId EventThreadDeleted
          (encodeEventThreadDeletePayload tid)))
  else (s, Except.error (RepoError.unknownEventType inputEvent.type))

/-- `ModuleArchive.handleRepositoryEvents` (archive/archive.go): the
cascade-delete listener.  Anything other than a `NodeDeleted` event is
ignored; a payload that fails to decode is logged and dropped; otherwise
every edge touching the deleted node id is removed via
`DeleteEdgesByNode` (whose failure would also be logged and dropped).
The handler receives no publisher and emits no events; its only effect
is the returned archive state. -/
def handleRepositoryEvents (s : ArchiveState) (event : Event) : ArchiveState :=
  if event.type ≠ EventNodeDeleted then s
  else
    match decodeEventNodeDeletePayload event.payload with
    | none => s
    | some nid =>
      match DeleteEdgesByNode s nid with
      | (s1, Except.ok _) => s1
      | (_, Except.error _) => s

/-- The subject the repo module subscribes to for repository `repoID`
(`ModuleRepo.MsgHandlers`, `fmt.Sprintf("repo.%s.in", repoID)`). -/
def repoInSubject (repoID : String) : String := "repo." ++ repoID ++ ".in"

/-- The subject the repo module publishes domain events on
(`ModuleRepo.handleInputEvent`, `fmt.Sprintf("repo.%s.out", repoID)`). -/
def repoOutSubject (repoID : String) : String := "repo." ++ repoID ++ ".out"

/-- The subscription subject of the cascade-delete listener
(`ModuleArchive.MsgHandlers`). -/
def moduleArchiveSubject : String := "repos.*.out"

/-- Split a subject into its dot-separated tokens. -/
def subjectTokensAux : List Char → List Char → List String
  | [], acc => [String.mk acc.reverse]
  | c :: rest, acc =>
    if c = '.' then String.mk acc.reverse :: subjectTokensAux rest []
    else subjectTokensAux rest (c :: acc)

def subjectTokens (s : String) : List String := subjectTokensAux s.toList []

/-- NATS subject matching on token lists: `*` matches exactly one token,
a trailing `>` matches one or more remaining tokens, any other token
matches literally. -/
def natsTokenMatch : List String → List String → Bool
  | [], [] => true
  | [">"], _ :: _ => true
  | p :: ps, t :: ts => if p = "*" ∨ p = t then natsTokenMatch ps ts else false
  | _, _ => false

/-- NATS subject matching of a subscription pattern against a concrete
subject. -/
def natsMatch (pattern subject : String) : Bool :=
  natsTokenMatch (subjectTokens pattern) (subjectTokens subject)

/- Concrete fixtures used by the witness and counterexample theorems. -/

def xidA : Xid := "aaaaaaaaaaaaaaaaaaaa"
def xidB : Xid := "bbbbbbbbbbbbbbbbbbbb"
def xidC : Xid := "cccccccccccccccccccc"
def xidD : Xid := "dddddddddddddddddddd"
def xidE : Xid := "eeeeeeeeeeeeeeeeeeee"
def xidU : Xid := "uuuuuuuuuuuuuuuuuuuu"
def xidF : Xid := "ffffffffffffffffffff"

/-- A sample creation time with a non-zero sub-second part. -/
def tSample : GoTime := ⟨2024, 1, 2, 3, 4, 5, 123456789, 0⟩

/-- A sample creation time with whole seconds. -/
def tWhole : GoTime := ⟨2024, 1, 2, 3, 4, 5, 0, 0⟩

/-- Claim C1: for every command event whose type string is not one of the
nine registered command types, `Repository.HandleInputEvent` returns the
unknown-event-type error and performs no archive mutation: the returned
archive state is exactly the input state. -/
theorem handleInputEvent_unknown_type_rejected (s : ArchiveState) (freshId : Xid) (ev : Event)
    (h : ev.type ∉ [EventCreateNode, EventUpdateNode, EventDeleteNode, EventCreateEdge,
      EventUpdateEdge, EventDeleteEdge, EventCreateThread, EventUpdateThread,
      EventDeleteThread]) :
    HandleInputEvent s freshId ev = (s, Except.error (RepoError.unknownEventType ev.type)) := by
  simp only [List.mem_cons, List.not_mem_nil, or_false, not_or] at h
  obtain ⟨h1, h2, h3, h4, h5, h6, h7, h8, h9⟩ := h
  simp only [HandleInputEvent, if_neg h1, if_neg h2, if_neg h3, if_neg h4, if_neg h5,
    if_neg h6, if_neg h7, if_neg h8, if_neg h9]

/-- Witness for C1: the domain-event type string NodeCreated is not a
registered command type, and dispatching it on the empty archive returns
the unknown-event-type error with the archive unchanged. -/
theorem handleInputEvent_unknown_type_rejected_witness :
    ("NodeCreated" : String) ∉ [EventCreateNode, EventUpdateNode, EventDeleteNode,
      EventCreateEdge, EventUpdateEdge, EventDeleteEdge, EventCreateThread,
      EventUpdateThread, EventDeleteThread] ∧
    HandleInputEvent emptyState xidF ⟨xidU, "NodeCreated", Json.null⟩ =
      (emptyState, Except.error (RepoError.unknownEventType "NodeCreated")) :=
  ⟨by decide, handleInputEvent_unknown_type_rejected emptyState xidF _ (by decide)⟩

/-- Claim C4, amended: an UpdateEdge command whose payload decodes as the
create-payload shape (the full edge under the JSON member `edge`, which
is the shape the dispatcher actually decodes and the HTTP handler
actually sends) is saved via the archive's SaveEdge row upsert, and the
returned domain event is EdgeUpdated carrying an EventEdgeUpdatePayload
built from the decoded edge's own id and the edge itself. -/
theorem handleInputEvent_updateEdge_create_shape (s : ArchiveState) (freshId : Xid)
    (ev : Event) (e : Edge) (htype : ev.type = EventUpdateEdge)
    (hdec : decodeEventEdgeCreatePayload ev.payload = some (some e)) :
    HandleInputEvent s freshId ev =
      ({ s with edges := tblSet s.edges e.id (edgeRowOf e) },
        Except.ok (NewEvent freshId EventEdgeUpdated
          (encodeEventEdgeUpdatePayload e.id (some e)))) := by
  simp only [HandleInputEvent, htype, hdec, SaveEdge, EventCreateNode, EventUpdateNode,
    EventDeleteNode, EventCreateEdge, EventUpdateEdge]
  rw [if_neg (by decide : ¬("UpdateEdge" = "CreateNode")),
    if_neg (by decide : ¬("UpdateEdge" = "UpdateNode")),
    if_neg (by decide : ¬("UpdateEdge" = "DeleteNode")),
    if_neg (by decide : ¬("UpdateEdge" = "CreateEdge"))]
  simp

/-- A concrete edge for the C4 theorems. -/
def edge4 : Edge := ⟨"gggggggggggggggggggg", "Reply", xidB, xidC, "re", (1 : Rat), tWhole⟩

/-- An UpdateEdge command carrying the create-payload shape (member
`edge`), as the HTTP update handler actually publishes. -/
def evC4ok : Event := ⟨xidU, "UpdateEdge", Json.obj [("edge", encodeEdge edge4)]⟩

/-- Witness for the amended C4: the concrete UpdateEdge command with the
`edge` payload shape updates the edge row and yields the EdgeUpdated
event carrying the edge id and the edge. -/
theorem handleInputEvent_updateEdge_create_shape_witness :
    evC4ok.type = EventUpdateEdge ∧
    decodeEventEdgeCreatePayload evC4ok.payload = some (some edge4) ∧
    HandleInputEvent emptyState xidF evC4ok =
      ({ emptyState with edges := tblSet emptyState.edges edge4.id (edgeRowOf edge4) },
        Except.ok (NewEvent xidF EventEdgeUpdated
          (encodeEventEdgeUpdatePayload edge4.id (some edge4)))) :=
  ⟨rfl, by decide, handleInputEvent_updateEdge_create_shape emptyState xidF evC4ok edge4 rfl
    (by decide)⟩

/-- An UpdateEdge command carrying the claimed payload shape with the
members `edge_id` and `updated_edge`. -/
def evC4bad : Event := ⟨xidU, "UpdateEdge",
  Json.obj [("edge_id", Json.str edge4.id), ("updated_edge", encodeEdge edge4)]⟩

/-- Counterexample to C4 as stated: on an UpdateEdge command whose
payload carries edge_id and updated_edge, the dispatcher (which decodes
the create shape, member `edge`) finds a nil edge, SaveEdge rejects it,
and HandleInputEvent returns the save error instead of an EdgeUpdated
event; the archive is unchanged. -/
theorem handleInputEvent_updateEdge_update_shape_rejected :
    HandleInputEvent emptyState xidF evC4bad =
      (emptyState, Except.error (RepoError.save "edge")) := rfl

/-- A concrete edge with a non-zero creation time for C3. -/
def edge3 : Edge := ⟨"hhhhhhhhhhhhhhhhhhhh", "Reply", xidB, xidC, "lbl", (2 : Rat), tSample⟩

/-- Claim C3, failing input: SaveEdge followed by GetEdge on the same
archive does not return the input edge: GetEdge scans the stored
created_at column but never assigns it, so the returned edge carries the
zero CreatedAt instead of the saved one.  (Thread values do not round
trip at all, see the C8 theorem, and Node values lose sub-second
CreatedAt precision through the database time format.) -/
theorem edge_roundtrip_drops_created_at :
    (SaveEdge emptyState (some edge3)).2 = Except.ok () ∧
    GetEdge (SaveEdge emptyState (some edge3)).1 edge3.id =
      Except.ok { edge3 with createdAt := zeroTime } ∧
    edge3.createdAt ≠ zeroTime :=
  ⟨rfl, rfl, by decide⟩

/-- The root node of the C2 thread, with a non-empty body. -/
def rootA : Node := ⟨xidA, "note", "subject", "text/plain", some (Json.str "hi"), [], xidU, tSample⟩

/-- An edge between two other nodes, used in the thread fixtures. -/
def edgeBC : Edge := ⟨"iiiiiiiiiiiiiiiiiiii", "Reply", xidB, xidC, "", (1 : Rat), tWhole⟩

/-- A thread whose root node has a body. -/
def threadA : Thread := ⟨rootA, [edgeBC], []⟩

/-- Claim C2, failing input: SaveThread cannot complete the documented
sequence.  The thread directory shares its path with the root node's
blob file, so saving the root node's non-empty body writes onto the
just-created directory and fails; SaveThread returns an error before the
transaction commits (no thread row) and no blob ever reaches the thread
directory. -/
theorem saveThread_directory_collision_errors :
    (SaveThread emptyState (some threadA)).2 =
      Except.error (ArchiveError.wrapped "failed to save thread node") ∧
    (SaveThread emptyState (some threadA)).1.threads xidA = none ∧
    fsGet (SaveThread emptyState (some threadA)).1.fs.files [xidA, xidA] = none ∧
    fsGet (SaveThread emptyState (some threadA)).1.fs.files [xidA, xidB] = none :=
  ⟨rfl, rfl, rfl, rfl⟩

/-- The root node of the C8 thread: empty body, so the metadata
transaction can commit. -/
def rootH : Node := ⟨xidD, "note", "subject", "text/plain", none, [], xidU, tSample⟩

/-- A thread rooted at `rootH` with one edge. -/
def threadH : Thread := ⟨rootH, [edgeBC], []⟩

/-- An archive holding a top-level blob for node `xidB`, an endpoint of
the thread's edge. -/
def s8 : ArchiveState := { emptyState with fs := ⟨[([xidB], Json.str "bb")], []⟩ }

/-- Claim C8, failing input: the thread round trip fails.  SaveThread
commits the thread row and join rows but then errors in the blob-move
loop (reading the root path hits the thread directory itself), leaving
the edge-endpoint blob at the top level; GetThread then fails as well,
because loading the root node reads the same directory path. -/
theorem thread_roundtrip_fails :
    (SaveThread s8 (some threadH)).2 =
      Except.error (ArchiveError.wrapped "failed to read node content") ∧
    (SaveThread s8 (some threadH)).1.threads xidD = some [] ∧
    (SaveThread s8 (some threadH)).1.threadEdges = [(xidD, edgeBC.id)] ∧
    fsGet (SaveThread s8 (some threadH)).1.fs.files [xidB] = some (Json.str "bb") ∧
    GetThread (SaveThread s8 (some threadH)).1 xidD =
      Except.error (ArchiveError.wrapped "failed to get thread node") :=
  ⟨rfl, rfl, rfl, rfl, rfl⟩

/-- Claim C5: the cascade-delete listener reacts only to NodeDeleted
events.  For any other event type the archive state is returned
untouched; a NodeDeleted event whose payload fails to decode is dropped
without a state change; a NodeDeleted event for node id nid removes
exactly the edges whose source or target is nid and leaves every other
table and the blob store unchanged.  The handler has no publisher, so it
emits no further events by construction. -/
theorem handleRepositoryEvents_cascade (s : ArchiveState) (ev : Event) :
    (ev.type ≠ EventNodeDeleted → handleRepositoryEvents s ev = s) ∧
    (ev.type = EventNodeDeleted → decodeEventNodeDeletePayload ev.payload = none →
      handleRepositoryEvents s ev = s) ∧
    (∀ nid : Xid, ev.type = EventNodeDeleted →
      decodeEventNodeDeletePayload ev.payload = some nid →
      handleRepositoryEvents s ev =
        { s with edges := fun i =>
            match s.edges i with
            | some r => if r.source = nid ∨ r.target = nid then none else some r
            | none => none }) := by
  refine ⟨fun h => ?_, fun h1 h2 => ?_, fun nid h1 h2 => ?_⟩
  · unfold handleRepositoryEvents
    rw [if_pos h]
  · unfold handleRepositoryEvents
    rw [if_neg (not_not_intro h1), h2]
  · unfold handleRepositoryEvents
    rw [if_neg (not_not_intro h1), h2]
    simp [DeleteEdgesByNode]

/-- An edge from node A to node B. -/
def edgeAB : Edge := ⟨"jjjjjjjjjjjjjjjjjjjj", "Reply", xidA, xidB, "", (1 : Rat), tWhole⟩

/-- An edge from node D to node E, unrelated to B. -/
def edgeDE : Edge := ⟨"kkkkkkkkkkkkkkkkkkkk", "Reply", xidD, xidE, "", (1 : Rat), tWhole⟩

/-- The edges table of the cascade scenario: A to B, B to C, D to E. -/
def cascadeEdges : Xid → Option EdgeRow :=
  tblSet (tblSet (tblSet emptyState.edges edgeAB.id (edgeRowOf edgeAB)) edgeBC.id (edgeRowOf edgeBC)) edgeDE.id (edgeRowOf edgeDE)

/-- The archive of the cascade scenario. -/
def sCascade : ArchiveState := { emptyState with edges := cascadeEdges }

/-- A NodeDeleted domain event for node B. -/
def evCascade : Event := ⟨xidU, "NodeDeleted", Json.obj [("node_id", Json.str xidB)]⟩

/-- Witness for C5: deleting node B cascades over the edges A to B and
B to C while the unrelated edge D to E survives. -/
theorem handleRepositoryEvents_cascade_witness :
    evCascade.type = EventNodeDeleted ∧
    decodeEventNodeDeletePayload evCascade.payload = some xidB ∧
    handleRepositoryEvents sCascade evCascade =
      { sCascade with edges := fun i =>
          (match sCascade.edges i with
          | some r => if r.source = xidB ∨ r.target = xidB then none else some r
          | none => none) } ∧
    (handleRepositoryEvents sCascade evCascade).edges edgeAB.id = none ∧
    (handleRepositoryEvents sCascade evCascade).edges edgeBC.id = none ∧
    (handleRepositoryEvents sCascade evCascade).edges edgeDE.id = some (edgeRowOf edgeDE) :=
  ⟨rfl, by decide,
    (handleRepositoryEvents_cascade sCascade evCascade).2.2 xidB rfl (by decide),
    by decide, by decide, by decide⟩

/-- Claim C6: for every entity kind, Get on an id whose row is absent
fails with the typed not-found error carrying that resource kind and
that id, never a zero value. -/
theorem get_absent_notFound (s : ArchiveState) (id : Xid) :
    (s.nodes id = none → GetNode s id = Except.error (ArchiveError.notFound "node" id)) ∧
    (s.edges id = none → GetEdge s id = Except.error (ArchiveError.notFound "edge" id)) ∧
    (s.threads id = none → GetThread s id = Except.error (ArchiveError.notFound "thread" id)) ∧
    (s.annotations id = none →
      GetAnnotation s id = Except.error (ArchiveError.notFound "annotation" id)) := by
  refine ⟨fun h => ?_, fun h => ?_, fun h => ?_, fun h => ?_⟩
  · unfold GetNode; rw [h]
  · unfold GetEdge; rw [h]
  · unfold GetThread; rw [h]
  · unfold GetAnnotation; rw [h]

/-- Witness for C6: on the freshly created archive, every Get of a
never-saved id returns the typed not-found error for its kind. -/
theorem get_absent_notFound_witness :
    emptyState.nodes xidA = none ∧ emptyState.edges xidA = none ∧
    emptyState.threads xidA = none ∧ emptyState.annotations xidA = none ∧
    GetNode emptyState xidA = Except.error (ArchiveError.notFound "node" xidA) ∧
    GetEdge emptyState xidA = Except.error (ArchiveError.notFound "edge" xidA) ∧
    GetThread emptyState xidA = Except.error (ArchiveError.notFound "thread" xidA) ∧
    GetAnnotation emptyState xidA = Except.error (ArchiveError.notFound "annotation" xidA) :=
  ⟨rfl, rfl, rfl, rfl,
    (get_absent_notFound emptyState xidA).1 rfl,
    (get_absent_notFound emptyState xidA).2.1 rfl,
    (get_absent_notFound emptyState xidA).2.2.1 rfl,
    (get_absent_notFound emptyState xidA).2.2.2 rfl⟩

theorem pathLe_self (p : List String) : pathLe p p = true := by
  induction p with
  | nil => rfl
  | cons a as ih => simp [pathLe, ih]

theorem fsGet_removeAll_none (l : List (List String × Json)) (p : List String) :
    fsGet (l.filter (fun e => !pathLe p e.1)) p = none := by
  induction l with
  | nil => rfl
  | cons e rest ih =>
    by_cases hp : pathLe p e.1
    · simp [List.filter_cons, hp, ih]
    · have hne : e.1 ≠ p := fun hq => hp (hq ▸ pathLe_self p)
      simp [List.filter_cons, hp, fsGet, hne, ih]

/-- Claim C7, amended: on an already-absent id, DeleteNode, DeleteEdge
and DeleteThread succeed (idempotent retries), while DeleteAnnotation
returns the typed not-found error because it looks the annotation up
first; and DeleteNode followed by GetNode on the same id always fails
with the typed not-found error. -/
theorem delete_absent_tolerance (s : ArchiveState) (id : Xid)
    (hn : s.nodes id = none) (he : s.edges id = none) (ht : s.threads id = none)
    (ha : s.annotations id = none) (hf : fsGet s.fs.files [id] = none)
    (hd : [id] ∉ s.fs.dirs) :
    (DeleteNode s id).2 = Except.ok () ∧
    (DeleteEdge s id).2 = Except.ok () ∧
    (DeleteThread s id).2 = Except.ok () ∧
    DeleteAnnotation s id = (s, Except.error (ArchiveError.notFound "annotation" id)) ∧
    (∀ s2 : ArchiveState, ∀ j : Xid,
      GetNode (DeleteNode s2 j).1 j = Except.error (ArchiveError.notFound "node" j)) := by
  refine ⟨?_, rfl, ?_, ?_, ?_⟩
  · simp [DeleteNode, fsRemove, hf, hd]
  · simp [DeleteThread, DeleteNode, fsRemove, fsRemoveAll, fsGet_removeAll_none,
      pathLe_self]
  · simp [ DeleteAnnotation, GetAnnotation, ha]
  · intro s2 j
    unfold DeleteNode
    rcases hrm : fsRemove { s2 with nodes := tblDel s2.nodes j }.fs [j] with fs1 | _ | _ <;>
      simp [hrm, GetNode, tblDel]

/-- Witness for the amended C7: on the empty archive, deleting the
absent id succeeds for nodes, edges and threads, DeleteAnnotation
returns the typed not-found error, and GetNode after DeleteNode is
not-found. -/
theorem delete_absent_tolerance_witness :
    emptyState.nodes xidE = none ∧ emptyState.edges xidE = none ∧
    emptyState.threads xidE = none ∧ emptyState.annotations xidE = none ∧
    fsGet emptyState.fs.files [xidE] = none ∧ [xidE] ∉ emptyState.fs.dirs ∧
    (DeleteNode emptyState xidE).2 = Except.ok () ∧
    (DeleteEdge emptyState xidE).2 = Except.ok () ∧
    (DeleteThread emptyState xidE).2 = Except.ok () ∧
    DeleteAnnotation emptyState xidE =
      (emptyState, Except.error (ArchiveError.notFound "annotation" xidE)) ∧
    GetNode (DeleteNode emptyState xidE).1 xidE =
      Except.error (ArchiveError.notFound "node" xidE) :=
  ⟨rfl, rfl, rfl, rfl, rfl, by simp [emptyState],
    (delete_absent_tolerance emptyState xidE rfl rfl rfl rfl rfl (by simp [emptyState])).1,
    (delete_absent_tolerance emptyState xidE rfl rfl rfl rfl rfl (by simp [emptyState])).2.1,
    (delete_absent_tolerance emptyState xidE rfl rfl rfl rfl rfl (by simp [emptyState])).2.2.1,
    (delete_absent_tolerance emptyState xidE rfl rfl rfl rfl rfl (by simp [emptyState])).2.2.2.1,
    (delete_absent_tolerance emptyState xidE rfl rfl rfl rfl rfl
      (by simp [emptyState])).2.2.2.2 emptyState xidE⟩

/-- Counterexample to C7 as stated: DeleteAnnotation on an id that was
never saved does return an error (the typed not-found), so delete on an
already-absent id is not error-free for every entity kind. -/
theorem deleteAnnotation_absent_errors :
    DeleteAnnotation emptyState xidC =
      (emptyState, Except.error (ArchiveError.notFound "annotation" xidC)) := rfl

/-- Claim C10: when a blob file already exists for a node id and
SaveNode is called with a node of that id whose body is empty, only the
structured row is rewritten: the blob file and every other table are
untouched, and a subsequent GetNode returns the previously stored body
rather than the empty body. -/
theorem saveNode_empty_body_keeps_blob (s : ArchiveState) (n : Node) (b : Json)
    (hb : fsGet s.fs.files [n.id] = some b) (hbody : n.body = none)
    (hd : [n.id] ∉ s.fs.dirs) :
    SaveNode s (some n) =
      ({ s with nodes := tblSet s.nodes n.id (nodeRowOf n) }, Except.ok ()) ∧
    GetNode { s with nodes := tblSet s.nodes n.id (nodeRowOf n) } n.id =
      Except.ok ⟨n.id, n.type, n.subject, n.contentType, some b, n.metadata, n.createdBy,
        truncSec n.createdAt⟩ ∧
    (∀ j : Xid, j ≠ n.id → (SaveNode s (some n)).1.nodes j = s.nodes j) ∧
    (SaveNode s (some n)).1.edges = s.edges ∧
    (SaveNode s (some n)).1.threads = s.threads ∧
    (SaveNode s (some n)).1.threadEdges = s.threadEdges ∧
    (SaveNode s (some n)).1.annotations = s.annotations ∧
    (SaveNode s (some n)).1.fs = s.fs := by
  have h1 : SaveNode s (some n) =
      ({ s with nodes := tblSet s.nodes n.id (nodeRowOf n) }, Except.ok ()) := by
    simp [SaveNode, hbody]
  refine ⟨h1, ?_, ?_, ?_, ?_, ?_, ?_, ?_⟩
  · simp [GetNode, tblSet, fsStatExists, fsReadFile, hb, hd, nodeRowOf]
  · intro j hj
    rw [h1]
    simp [tblSet, hj]
  all_goals rw [h1]

/-- An archive holding only a top-level blob for node id `xidA`. -/
def sBlob : ArchiveState := { emptyState with fs := ⟨[([xidA], Json.str "old")], []⟩ }

/-- A node with id `xidA` and an empty body. -/
def nodeNoBody : Node := ⟨xidA, "note", "subj", "text/plain", none, [], xidU, tWhole⟩

/-- Witness for C10: saving the empty-bodied node over the existing blob
leaves the file system untouched and GetNode returns the old body. -/
theorem saveNode_empty_body_keeps_blob_witness :
    fsGet sBlob.fs.files [nodeNoBody.id] = some (Json.str "old") ∧
    nodeNoBody.body = none ∧ [nodeNoBody.id] ∉ sBlob.fs.dirs ∧
    GetNode { sBlob with nodes := tblSet sBlob.nodes nodeNoBody.id (nodeRowOf nodeNoBody) }
      nodeNoBody.id =
      Except.ok ⟨xidA, "note", "subj", "text/plain", some (Json.str "old"), [], xidU,
        truncSec tWhole⟩ ∧
    (SaveNode sBlob (some nodeNoBody)).1.fs = sBlob.fs :=
  ⟨rfl, rfl, by simp [sBlob],
    (saveNode_empty_body_keeps_blob sBlob nodeNoBody (Json.str "old") rfl rfl
      (by simp [sBlob])).2.1,
    (saveNode_empty_body_keeps_blob sBlob nodeNoBody (Json.str "old") rfl rfl
      (by simp [sBlob])).2.2.2.2.2.2.2⟩

/-- A sample repository identifier (a valid xid string). -/
def wRepoId : String := "9m4e2mr0ui3e8a215n4g"

/-- Claim C9, failing input: the repo module subscribes on
repo.R.in and publishes on repo.R.out (subject prefix `repo.`, from
`fmt.Sprintf` in ModuleRepo), not on the claimed `repos.` subjects, and
the published subject does not match the cascade-delete listener's
subscription pattern repos.*.out, which would only match the `repos.`
sibling the claim (and the module's own README) describes. -/
theorem repo_subject_mismatch :
    repoInSubject wRepoId = "repo.9m4e2mr0ui3e8a215n4g.in" ∧
    repoOutSubject wRepoId = "repo.9m4e2mr0ui3e8a215n4g.out" ∧
    repoOutSubject wRepoId ≠ "repos." ++ wRepoId ++ ".out" ∧
    natsMatch moduleArchiveSubject (repoOutSubject wRepoId) = false ∧
    natsMatch moduleArchiveSubject ("repos." ++ wRepoId ++ ".out") = true :=
  ⟨rfl, rfl, by decide, by decide, by decide⟩
